import Mathlib

/-!
Verification of the `lmofid_scraper` M3U8 downloader.

Shallow embedding of `src/M3U8Downloader.py` (and the behaviourally identical
`src/scrape.py`).  Python strings are modelled as lists of characters, the
Python `dict` (insertion-ordered, last-write-wins on values) as an association
list with an insert operation reproducing CPython semantics, and the network as
an explicit fetch oracle mapping a URL to an HTTP response.
-/

namespace M3U8

/-- Python strings, modelled as lists of characters. -/
abbrev Str := List Char

/-- Turn a Lean string literal into the character-list model. -/
def toStr (s : String) : Str := s.data

/-- Python `str.splitlines()` restricted to the line boundaries that occur in
practice: a line ends at `\n`, `\r` or `\r\n`; a trailing boundary produces no
trailing empty line. -/
def splitlines : Str → List Str
  | [] => []
  | [c] => if c = '\n' || c = '\r' then [[]] else [[c]]
  | c :: d :: rest =>
    if c = '\n' then [] :: splitlines (d :: rest)
    else if c = '\r' then
      if d = '\n' then [] :: splitlines rest else [] :: splitlines (d :: rest)
    else
      match splitlines (d :: rest) with
      | [] => [[c]]
      | l :: ls => (c :: l) :: ls

/-- Worker for `psplit`: scans the string left to right, splitting at each
leftmost, non-overlapping occurrence of `sep`.  The fuel argument (always
instantiated with the length of the string) only makes the recursion
structural; each step consumes at least one character. -/
def psplitAux (sep : Str) : Nat → Str → Str → List Str
  | _, [], acc => [acc.reverse]
  | 0, s, acc => [acc.reverse ++ s]
  | Nat.succ fuel, c :: rest, acc =>
    if sep.isPrefixOf (c :: rest) then
      acc.reverse :: psplitAux sep fuel (rest.drop (sep.length - 1)) []
    else
      psplitAux sep fuel rest (c :: acc)

/-- Python `s.split(sep)` for a non-empty separator: split at every leftmost,
non-overlapping occurrence of `sep`, keeping empty parts. -/
def psplit (s sep : Str) : List Str := psplitAux sep s.length s []

/-- Python `sub in s`: substring containment. -/
def containsSub (s sub : Str) : Bool :=
  (List.range (s.length + 1)).any (fun i => sub.isPrefixOf (s.drop i))

/-- Python whitespace as stripped by `str.strip()` (ASCII range). -/
def pyWhitespace (c : Char) : Bool :=
  c = ' ' || c = '\t' || c = '\n' || c = '\r' || c = '\x0b' || c = '\x0c'

/-- Python `s.strip()`. -/
def pstrip (s : Str) : Str :=
  ((s.dropWhile pyWhitespace).reverse.dropWhile pyWhitespace).reverse

/-- Python `s.isdigit()` on ASCII input: non-empty and all decimal digits. -/
def pisdigit (s : Str) : Bool := !s.isEmpty && s.all Char.isDigit

/-- Python `int(s)` on a string of decimal digits. -/
def pint (s : Str) : Nat := s.foldl (fun n c => 10 * n + (c.toNat - 48)) 0

/-- Python `lst.index(x)`: index of the first occurrence (the element is
always present at the call sites we model). -/
def pindex (l : List Str) (x : Str) : Nat := l.findIdx (fun y => y == x)

/-- The Python `dict` holding `self.media_urls`, as an insertion-ordered
association list. -/
abbrev Dict := List (Str × Str)

/-- CPython `d[k] = v`: if the key is present, overwrite its value in place
(keeping its position); otherwise append the new binding. -/
def dinsert (d : Dict) (k v : Str) : Dict :=
  if d.any (fun p => p.1 == k) then
    d.map (fun p => if p.1 == k then (p.1, v) else p)
  else d ++ [(k, v)]

/-- CPython `d.get(k)` / `k in d`: value of the first (hence only) binding. -/
def dlookup (d : Dict) (k : Str) : Option Str :=
  (d.find? (fun p => p.1 == k)).map (fun p => p.2)

/-- CPython `list(d.keys())`, in insertion order. -/
def dkeys (d : Dict) : List Str := d.map (fun p => p.1)

/-- The literal `"RESOLUTION="` marker. -/
def resMarker : Str := toStr "RESOLUTION="

/-- The literal `","` separator. -/
def commaSep : Str := toStr ","

/-- The literal `"https://"` scheme test of `parse_m3u8`. -/
def httpsMark : Str := toStr "https://"

/-- The literal `"/"` prefix test of `concatenate_segments`. -/
def slashMark : Str := toStr "/"

/-- The sentinel returned by `extract_resolution` when no marker is found. -/
def unknownTag : Str := toStr "Unknown"

/-- The hard-coded segment base URL of `concatenate_segments`. -/
def baseUrl : Str := toStr "https://embed-cloudfront.wistia.com"

/-- `M3U8Downloader.extract_resolution` (`src/M3U8Downloader.py` lines 59-72):
`line.split('RESOLUTION=')[1].split(',')[0]` when the marker occurs in the
line, otherwise the sentinel `"Unknown"`. -/
def extract_resolution (line : Str) : Str :=
  if containsSub line resMarker then
    (psplit ((psplit line resMarker).getD 1 []) commaSep).getD 0 []
  else unknownTag

/-- `M3U8Downloader.parse_m3u8` (`src/M3U8Downloader.py` lines 47-57): walk
the lines; for each line starting with `https://`, look up the line preceding
the FIRST occurrence of that line text (Python `lines.index(line)`), extract a
resolution tag from it, and store `tag -> line` in the media dictionary. -/
def parse_m3u8 (content : Str) : Dict :=
  let lines := splitlines content
  lines.foldl
    (fun media_urls line =>
      if httpsMark.isPrefixOf line then
        dinsert media_urls
          (extract_resolution
            (if pindex lines line > 0 then lines.getD (pindex lines line - 1) [] else []))
          line
      else media_urls)
    []

/-- An HTTP response whose body is read as text (`response.text`). -/
structure TextResponse where
  status_code : Nat
  text : Str
deriving DecidableEq

/-- An HTTP response whose body is read as bytes (`response.iter_content`). -/
structure SegResponse where
  status_code : Nat
  content : List UInt8
deriving DecidableEq

/-- `M3U8Downloader.download_m3u8` (`src/M3U8Downloader.py` lines 36-45):
store the body as the manifest text on status 200, otherwise raise an
exception carrying the status code (so nothing is stored). -/
def download_m3u8 (response : TextResponse) : Except Nat Str :=
  if response.status_code = 200 then Except.ok response.text
  else Except.error response.status_code

/-- `urllib.parse.urljoin` in the only situation the code uses it
(`src/M3U8Downloader.py` line 136): a root-relative reference (starting with
`/`) resolved against the bare origin `baseUrl`, which has no path, query or
fragment; the result is the origin followed by the reference. -/
def urljoin (base ref : Str) : Str := base ++ ref

/-- The segment-reference selection of `concatenate_segments`
(`src/M3U8Downloader.py` line 136): the lines of the media manifest that start
with `/`, in order. -/
def segment_lines (content : Str) : List Str :=
  (splitlines content).filter (fun line => slashMark.isPrefixOf line)

/-- The absolute segment URLs of `concatenate_segments`
(`src/M3U8Downloader.py` line 136). -/
def segment_urls (content : Str) : List Str :=
  (segment_lines content).map (fun line => urljoin baseUrl line)

/-- `M3U8Downloader.concatenate_segments` (`src/M3U8Downloader.py` lines
124-149): fetch every segment URL in order; on status 200 append the whole
body (the chunked `iter_content` writes concatenate to the body) to the output
file, otherwise log and skip.  The returned list is the byte content of
`temp.ts`; `fetch` is the network oracle standing for `requests.get`. -/
def concatenate_segments (fetch : Str → SegResponse) (content : Str) : List UInt8 :=
  (segment_urls content).foldl
    (fun outfile segment_url =>
      if (fetch segment_url).status_code == 200 then outfile ++ (fetch segment_url).content
      else outfile)
    []

/-- Outcome of `ask_resolution_and_download` (`src/M3U8Downloader.py` lines
74-105), identified by which message/branch the method reaches. -/
inductive SelectOutcome where
  | noMedia : SelectOutcome
  | invalidChoice : SelectOutcome
  | invalidName : SelectOutcome
  | notFound : SelectOutcome
  | download (resolution url : Str) : SelectOutcome
deriving DecidableEq

/-- Lines 101-105 of `src/M3U8Downloader.py`: look the selected resolution up
in the dictionary; a missing or falsy (empty) URL prints "Resolution not
found.", otherwise the URL is downloaded. -/
def select_url (media_urls : Dict) (selected_resolution : Str) : SelectOutcome :=
  match dlookup media_urls selected_resolution with
  | some url =>
    if url.isEmpty then SelectOutcome.notFound
    else SelectOutcome.download selected_resolution url
  | none => SelectOutcome.notFound

/-- `M3U8Downloader.ask_resolution_and_download` (`src/M3U8Downloader.py`
lines 74-105) as a pure function of the media dictionary and the raw user
input: digit-only input is a 1-based ordinal into the key list, any other
input is tried as a key, and the selected key is then resolved to a URL. -/
def ask_resolution_and_download (media_urls : Dict) (raw_input : Str) : SelectOutcome :=
  if media_urls.isEmpty then SelectOutcome.noMedia
  else
    let choice := pstrip raw_input
    if pisdigit choice then
      if 1 ≤ pint choice ∧ pint choice ≤ media_urls.length then
        select_url media_urls ((dkeys media_urls).getD (pint choice - 1) [])
      else SelectOutcome.invalidChoice
    else
      if (dlookup media_urls choice).isSome then select_url media_urls choice
      else SelectOutcome.invalidName

/-- File-system facts relevant to `convert_to_mp4`. -/
structure FsState where
  ts_exists : Bool
  mp4_written : Bool
deriving DecidableEq

/-- `M3U8Downloader.convert_to_mp4` (`src/M3U8Downloader.py` lines 151-176):
`transcode_ok` says whether the moviepy conversion succeeds (its exception is
caught and printed), `delete_ok` whether `os.remove` succeeds (its
`PermissionError` is caught and printed).  The `finally` block runs on every
path and deletes the temporary `.ts` file whenever it exists. -/
def convert_to_mp4 (transcode_ok delete_ok : Bool) (fs : FsState) : FsState :=
  let fs1 := if transcode_ok then { fs with mp4_written := true } else fs
  if fs1.ts_exists then
    if delete_ok then { fs1 with ts_exists := false } else fs1
  else fs1

/-- The resolution tag `parse_m3u8` computes for one media line of `content`:
the tag of the line preceding the first occurrence of that line text. -/
def tag_of (content : Str) (line : Str) : Str :=
  extract_resolution
    (if pindex (splitlines content) line > 0 then
      (splitlines content).getD (pindex (splitlines content) line - 1) []
    else [])

/-- The `(tag, url)` pairs `parse_m3u8` inserts, in insertion order: one per
media line of `content`, tagged by `tag_of`. -/
def media_entries (content : Str) : List (Str × Str) :=
  ((splitlines content).filter (fun line => httpsMark.isPrefixOf line)).map
    (fun line => (tag_of content line, line))

/-- Concrete media manifest used to witness full-success assembly: three
root-relative segment lines among tag lines. -/
def c1Content : Str := toStr "#EXTM3U\n/seg0.ts\n/seg1.ts\n/seg2.ts"

/-- Concrete fetch oracle for `c1Content`: every one of its three segment URLs
answers 200 with bodies `AAA`, `BB`, `C`; anything else is a 404. -/
def c1Fetch (u : Str) : SegResponse :=
  if u = urljoin baseUrl (toStr "/seg0.ts") then ⟨200, [65, 65, 65]⟩
  else if u = urljoin baseUrl (toStr "/seg1.ts") then ⟨200, [66, 66]⟩
  else if u = urljoin baseUrl (toStr "/seg2.ts") then ⟨200, [67]⟩
  else ⟨404, []⟩

/-- Concrete master manifest in which the same media URL line text occurs at
two positions, each preceded by a different resolution line. -/
def c3Manifest : Str :=
  toStr "#S RESOLUTION=720x480\nhttps://a.example/v\n#S RESOLUTION=1920x1080\nhttps://a.example/v"

/-- Concrete master manifest with two distinct media URLs carrying the same
extracted resolution tag `1080`. -/
def c4Manifest : Str :=
  toStr "#A RESOLUTION=1080,x\nhttps://u1\n#B RESOLUTION=1080,y\nhttps://u2"

/-- Concrete non-empty variant index with a single ordinary tag. -/
def c7Index : Dict := [(toStr "1080p", toStr "https://u")]

/-- Concrete variant index whose only tag is the all-digit string `1080`. -/
def c9Index : Dict := [(toStr "1080", toStr "https://v")]

/-- Concrete metadata line containing `RESOLUTION=` twice and no comma. -/
def c10Line : Str := toStr "RESOLUTION=800x600RESOLUTION=640x480"

/-- Concrete metadata line containing `RESOLUTION=` once and no comma. -/
def c10GoodLine : Str := toStr "#EXT-X-STREAM-INF:RESOLUTION=1920x1080"

/-! ### Helper lemmas -/

/-- Folding a conditional append equals appending the flattened images of the
elements passing the test, in order. -/
theorem foldl_append_if (p : Str → Bool) (f : Str → List UInt8) (l : List Str)
    (acc : List UInt8) :
    l.foldl (fun out u => if p u then out ++ f u else out) acc
      = acc ++ ((l.filter p).map f).flatten := by
  induction l generalizing acc with
  | nil => simp
  | cons a t ih =>
    cases hp : p a <;>
      simp [List.foldl_cons, List.filter_cons, hp, ih, List.append_assoc]

/-- Filtering an enumerated list on the element and dropping the indices again
is plain filtering. -/
theorem filter_enumFrom_snd {α : Type} (p : α → Bool) (l : List α) (n : Nat) :
    (((List.enumFrom n l).filter fun q => p q.2).map fun q => q.2) = l.filter p := by
  induction l generalizing n with
  | nil => rfl
  | cons a t ih =>
    cases hp : p a <;> simp [List.enumFrom, List.filter_cons, hp, ih]

/-- `find?` returns the head of the filtered list. -/
theorem find?_eq_head?_of_filter {α : Type} (p : α → Bool) (l : List α) :
    l.find? p = (l.filter p).head? := by
  induction l with
  | nil => rfl
  | cons a t ih =>
    cases hp : p a with
    | true => simp [List.filter_cons, hp]
    | false =>
      have hpa : ¬ p a = true := by simp [hp]
      rw [List.find?_cons_of_neg _ hpa, List.filter_cons, if_neg hpa, ih]

/-- Unfolding `dlookup` over a cons cell. -/
theorem dlookup_cons (q : Str × Str) (r : Dict) (k : Str) :
    dlookup (q :: r) k = if q.1 = k then some q.2 else dlookup r k := by
  by_cases hq : q.1 = k
  · unfold dlookup
    rw [List.find?_cons_of_pos _ (by simp [hq]), if_pos hq]
    rfl
  · unfold dlookup
    rw [List.find?_cons_of_neg _ (by simp [hq]), if_neg hq]

/-- Unfolding `dlookup` over an append. -/
theorem dlookup_append (d₁ d₂ : Dict) (k : Str) :
    dlookup (d₁ ++ d₂) k = (dlookup d₁ k).or (dlookup d₂ k) := by
  unfold dlookup
  rw [List.find?_append]
  cases List.find? (fun p => p.1 == k) d₁ <;> simp

/-- Looking a different key up is unaffected by replacing the values stored
under `k`. -/
theorem dlookup_map_replace_ne (t : Dict) (k v k' : Str) (h : ¬ k = k') :
    dlookup (t.map (fun p => if p.1 == k then (p.1, v) else p)) k' = dlookup t k' := by
  induction t with
  | nil => rfl
  | cons q r ih =>
    rw [List.map_cons]
    by_cases hqk : q.1 = k
    · have hf : (if q.1 == k then (q.1, v) else q) = (q.1, v) := by simp [hqk]
      have hq' : ¬ q.1 = k' := by rw [hqk]; exact h
      rw [hf, dlookup_cons, dlookup_cons, if_neg hq', if_neg hq']
      exact ih
    · have hf : (if q.1 == k then (q.1, v) else q) = q := by simp [hqk]
      rw [hf, dlookup_cons, dlookup_cons]
      by_cases hq : q.1 = k'
      · rw [if_pos hq, if_pos hq]
      · rw [if_neg hq, if_neg hq]
        exact ih

/-- If some binding with key `k` is present, replacing every value under `k`
by `v` makes the lookup of `k` return `v`. -/
theorem dlookup_map_replace_found (t : Dict) (k v : Str)
    (h : t.any (fun p => p.1 == k) = true) :
    dlookup (t.map (fun p => if p.1 == k then (p.1, v) else p)) k = some v := by
  induction t with
  | nil => simp at h
  | cons q r ih =>
    rw [List.map_cons]
    by_cases hq : q.1 = k
    · have hf : (if q.1 == k then (q.1, v) else q) = (q.1, v) := by simp [hq]
      rw [hf, dlookup_cons, if_pos hq]
    · have hf : (if q.1 == k then (q.1, v) else q) = q := by simp [hq]
      have hr : r.any (fun p => p.1 == k) = true := by
        simpa [List.any_cons, hq] using h
      rw [hf, dlookup_cons, if_neg hq]
      exact ih hr

/-- CPython dictionary update law: after `d[k] = v`, looking up `k` gives `v`
and every other key is unchanged. -/
theorem dlookup_dinsert (d : Dict) (k v k' : Str) :
    dlookup (dinsert d k v) k' = if k = k' then some v else dlookup d k' := by
  by_cases hany : d.any (fun p => p.1 == k) = true
  · rw [dinsert, if_pos hany]
    by_cases hkk : k = k'
    · subst hkk
      rw [if_pos rfl]
      exact dlookup_map_replace_found d k v hany
    · rw [if_neg hkk]
      exact dlookup_map_replace_ne d k v k' hkk
  · rw [dinsert, if_neg hany, dlookup_append]
    have hdk : dlookup d k = none := by
      unfold dlookup
      rw [List.find?_eq_none.mpr]
      · rfl
      · intro x hx hpx
        exact hany (List.any_eq_true.mpr ⟨x, hx, hpx⟩)
    by_cases hkk : k = k'
    · subst hkk
      rw [if_pos rfl, hdk, dlookup_cons, if_pos rfl]
      rfl
    · rw [if_neg hkk, dlookup_cons, if_neg hkk]
      exact Option.or_none

/-- Folding CPython insertions over a list of bindings: the final value of a
key is the value of its last binding, falling back to the initial dictionary. -/
theorem dlookup_foldl_dinsert (es : List (Str × Str)) (d : Dict) (k : Str) :
    dlookup (es.foldl (fun dd q => dinsert dd q.1 q.2) d) k
      = ((es.reverse.find? (fun q => q.1 == k)).map (fun q => q.2)).or (dlookup d k) := by
  induction es generalizing d with
  | nil => simp
  | cons a t ih =>
    rw [List.foldl_cons, ih, List.reverse_cons, List.find?_append]
    cases hfind : t.reverse.find? (fun q => q.1 == k) with
    | some q => simp
    | none =>
      rw [dlookup_dinsert]
      by_cases hak : a.1 = k
      · simp [hak]
      · have hne : ¬ (a.1 == k) = true := by simpa using hak
        simp [hne, hak]

/-- A conditional insert fold over lines equals the insert fold over the
filtered and tagged lines. -/
theorem foldl_dinsert_filter_map (g : Str → Str) (p : Str → Bool) (l : List Str) (d : Dict) :
    l.foldl (fun dd line => if p line then dinsert dd (g line) line else dd) d
      = ((l.filter p).map (fun line => (g line, line))).foldl
          (fun dd q => dinsert dd q.1 q.2) d := by
  induction l generalizing d with
  | nil => rfl
  | cons a t ih => cases hp : p a <;> simp [List.filter_cons, hp, ih]

/-- `parse_m3u8` is the insert fold over its media entries. -/
theorem parse_m3u8_eq_fold_entries (content : Str) :
    parse_m3u8 content
      = (media_entries content).foldl (fun dd q => dinsert dd q.1 q.2) [] := by
  simp only [parse_m3u8, media_entries, tag_of]
  exact foldl_dinsert_filter_map _ _ _ []

/-- Splitting on a character that does not occur leaves the string whole. -/
theorem psplitAux_no_occurrence (c : Char) (s : Str) :
    ∀ (fuel : Nat) (acc : Str), s.length ≤ fuel → c ∉ s →
      psplitAux [c] fuel s acc = [acc.reverse ++ s] := by
  induction s with
  | nil => intro fuel acc _ _; cases fuel <;> simp [psplitAux]
  | cons a t ih =>
    intro fuel acc hfuel h
    cases fuel with
    | zero => simp at hfuel
    | succ f =>
      have hca : ¬ (([c].isPrefixOf (a :: t)) = true) := by
        have : ¬ c = a := fun hc => h (hc ▸ List.mem_cons_self a t)
        simp [List.isPrefixOf, this]
      have ht : c ∉ t := fun hc => h (List.mem_cons_of_mem a hc)
      have hlen : t.length ≤ f := Nat.le_of_succ_le_succ hfuel
      simp only [psplitAux, hca, if_false]
      rw [ih f (a :: acc) hlen ht]
      simp

/-- Python `s.split(c)` for a character not occurring in `s` is `[s]`. -/
theorem psplit_no_occurrence (c : Char) (s : Str) (h : c ∉ s) :
    psplit s [c] = [s] := by
  simpa [psplit] using psplitAux_no_occurrence c s s.length [] (Nat.le_refl _) h

/-- `select_url` never reaches the invalid-resolution-name branch. -/
theorem select_url_ne_invalid_name (d : Dict) (k : Str) :
    ¬ select_url d k = SelectOutcome.invalidName := by
  unfold select_url
  cases dlookup d k with
  | none => simp
  | some url => by_cases h : url.isEmpty <;> simp [h]

/-! ### Claims -/

/-- C1: when every segment URL of the media manifest answers status 200, the
assembled byte stream is exactly the concatenation of the segment bodies in
manifest-declared order, with no reordering, gaps, duplication or inserted
separators. -/
theorem assembled_output_is_ordered_concat (content : Str) (fetch : Str → SegResponse)
    (h : ∀ u ∈ segment_urls content, (fetch u).status_code = 200) :
    concatenate_segments fetch content
      = ((segment_urls content).map (fun u => (fetch u).content)).flatten := by
  have h2 := foldl_append_if (fun u => (fetch u).status_code == 200)
      (fun u => (fetch u).content) (segment_urls content) []
  have hf : (segment_urls content).filter (fun u => (fetch u).status_code == 200)
      = segment_urls content := by
    rw [List.filter_eq_self]
    intro a ha
    simp [h a ha]
  calc concatenate_segments fetch content
      = [] ++ (((segment_urls content).filter (fun u => (fetch u).status_code == 200)).map
          (fun u => (fetch u).content)).flatten := h2
    _ = ((segment_urls content).map (fun u => (fetch u).content)).flatten := by
          rw [hf, List.nil_append]

/-- C1 witness: three segments with bodies `AAA`, `BB`, `C` assemble to exactly
`AAABBC`. -/
theorem assembled_output_is_ordered_concat_witness :
    concatenate_segments c1Fetch c1Content = [65, 65, 65, 66, 66, 67] := by
  have h := assembled_output_is_ordered_concat c1Content c1Fetch (by decide)
  rw [h]
  decide

/-- C6: during assembly each segment whose fetch is non-200 contributes
nothing and the ones that succeed contribute their whole bodies, in order: the
output is the in-order concatenation of the successfully fetched bodies. -/
theorem concatenate_skips_failed_segments (fetch : Str → SegResponse) (content : Str) :
    concatenate_segments fetch content
      = (((segment_urls content).filter (fun u => (fetch u).status_code == 200)).map
          (fun u => (fetch u).content)).flatten := by
  have h := foldl_append_if (fun u => (fetch u).status_code == 200)
      (fun u => (fetch u).content) (segment_urls content) []
  calc concatenate_segments fetch content
      = [] ++ (((segment_urls content).filter (fun u => (fetch u).status_code == 200)).map
          (fun u => (fetch u).content)).flatten := h
    _ = _ := List.nil_append _

/-- C2: a line of the media manifest is selected as a segment reference if and
only if it starts with `/`; the selection preserves the original line order
and positions (the enumerated characterisation) and deduplicates nothing (the
count characterisation). -/
theorem segment_ref_selection (content : Str) :
    (segment_lines content
        = (((splitlines content).enum.filter fun q => slashMark.isPrefixOf q.2).map
            fun q => q.2))
  ∧ (∀ line : Str, line ∈ segment_lines content
        ↔ line ∈ splitlines content ∧ slashMark.isPrefixOf line = true)
  ∧ (∀ line : Str, (segment_lines content).count line
        = if slashMark.isPrefixOf line then (splitlines content).count line else 0) := by
  refine ⟨?_, ?_, ?_⟩
  · rw [segment_lines, List.enum, filter_enumFrom_snd]
  · intro line
    simp [segment_lines, List.mem_filter]
  · intro line
    cases hp : slashMark.isPrefixOf line with
    | true =>
      rw [if_pos rfl]
      exact List.count_filter hp
    | false =>
      rw [if_neg (by simp)]
      rw [List.count_eq_zero]
      simp [segment_lines, List.mem_filter, hp]

/-- C3: evaluating `parse_m3u8` on a manifest in which the same media URL line
text occurs at positions 1 and 3, preceded by tags `720x480` and `1920x1080`
respectively.  Because the code recovers a line's position with
`lines.index(line)` (first occurrence), both occurrences are tagged from line
0, the claimed position `i - 1` tag `1920x1080` is never extracted, and the
resulting index has a single entry. -/
theorem duplicate_media_line_uses_first_occurrence :
    parse_m3u8 c3Manifest = [(toStr "720x480", toStr "https://a.example/v")]
  ∧ dlookup (parse_m3u8 c3Manifest) (toStr "1920x1080") = none :=
  ⟨by decide, by decide⟩

/-- C4: when exactly two media URL lines carry the same extracted resolution
tag, the parsed variant index maps that tag to the URL of the later line. -/
theorem duplicate_tag_last_write_wins (content : Str) (t u1 u2 : Str)
    (h : (media_entries content).filter (fun q => q.1 == t) = [(t, u1), (t, u2)]) :
    dlookup (parse_m3u8 content) t = some u2 := by
  rw [parse_m3u8_eq_fold_entries, dlookup_foldl_dinsert]
  have hfind : (media_entries content).reverse.find? (fun q => q.1 == t) = some (t, u2) := by
    rw [find?_eq_head?_of_filter, List.filter_reverse, h]
    rfl
  rw [hfind]
  rfl

/-- C4 witness: a manifest with tags `1080` on both media lines maps `1080` to
the second URL. -/
theorem duplicate_tag_last_write_wins_witness :
    dlookup (parse_m3u8 c4Manifest) (toStr "1080") = some (toStr "https://u2") :=
  duplicate_tag_last_write_wins c4Manifest (toStr "1080") (toStr "https://u1")
    (toStr "https://u2") (by decide)

/-- C5: the manifest fetch succeeds exactly on status 200, in which case the
body is stored as the manifest text; every other status raises an error
carrying the status code, and the error carries no manifest text. -/
theorem manifest_fetch_success_iff_200 (r : TextResponse) :
    ((∃ t, download_m3u8 r = Except.ok t) ↔ r.status_code = 200)
  ∧ (r.status_code = 200 → download_m3u8 r = Except.ok r.text)
  ∧ (r.status_code ≠ 200 → download_m3u8 r = Except.error r.status_code) := by
  refine ⟨⟨?_, ?_⟩, ?_, ?_⟩
  · rintro ⟨t, ht⟩
    by_contra hne
    rw [download_m3u8, if_neg hne] at ht
    cases ht
  · intro h
    exact ⟨r.text, by rw [download_m3u8, if_pos h]⟩
  · intro h
    rw [download_m3u8, if_pos h]
  · intro h
    rw [download_m3u8, if_neg h]

/-- C5 witness: a 404 response is an error carrying 404. -/
theorem manifest_fetch_success_iff_200_witness :
    download_m3u8 ⟨404, toStr "x"⟩ = Except.error 404 :=
  (manifest_fetch_success_iff_200 ⟨404, toStr "x"⟩).2.2 (by decide)

/-- C7 counterexample: on the non-empty index `c7Index`, empty user input is
rejected with "Invalid resolution name." instead of selecting the first entry
and downloading it. -/
theorem empty_input_not_first_entry :
    ask_resolution_and_download c7Index (toStr "") = SelectOutcome.invalidName := by
  decide

/-- C7 (amended): for a non-empty variant index in which the empty string is
not a stored tag, empty user input is rejected as an invalid resolution name
and nothing is downloaded. -/
theorem empty_input_is_invalid_name (d : Dict) (hne : d.isEmpty = false)
    (hkey : dlookup d [] = none) :
    ask_resolution_and_download d [] = SelectOutcome.invalidName := by
  simp [ask_resolution_and_download, hne, pstrip, pisdigit, hkey]

/-- C7 witness for the amended claim, at the concrete index `c7Index`. -/
theorem empty_input_is_invalid_name_witness :
    ask_resolution_and_download c7Index [] = SelectOutcome.invalidName :=
  empty_input_is_invalid_name c7Index (by decide) (by decide)

/-- C8 counterexample: with the temporary `.ts` file present, a failing
transcode and a permitted delete, `convert_to_mp4` still removes the
temporary file — it is not retained on transcode failure. -/
theorem temp_file_deleted_on_failed_transcode :
    (convert_to_mp4 false true { ts_exists := true, mp4_written := false }).ts_exists
      = false := by
  decide

/-- C8 (amended): the `finally` block of `convert_to_mp4` deletes the
temporary `.ts` file on every exit path, transcode failure included; the file
survives only when the deletion itself fails with `PermissionError` (and the
output is written exactly when the transcode succeeds). -/
theorem temp_file_lifecycle (transcode_ok delete_ok : Bool) (fs : FsState) :
    (convert_to_mp4 transcode_ok delete_ok fs).ts_exists = (fs.ts_exists && !delete_ok)
  ∧ (convert_to_mp4 transcode_ok delete_ok fs).mp4_written
      = (fs.mp4_written || transcode_ok) := by
  obtain ⟨te, mw⟩ := fs
  cases transcode_ok <;> cases delete_ok <;> cases te <;> cases mw <;> exact ⟨rfl, rfl⟩

/-- C9: user input that strips to a non-empty all-digit string is interpreted
as a 1-based ordinal into the insertion order of the variant index — taken in
range it selects by position, out of range it is an invalid choice — and it is
never looked up as a tag name. -/
theorem digit_input_is_ordinal (d : Dict) (raw : Str)
    (h : pisdigit (pstrip raw) = true) :
    (ask_resolution_and_download d raw
        = if d.isEmpty then SelectOutcome.noMedia
          else if 1 ≤ pint (pstrip raw) ∧ pint (pstrip raw) ≤ d.length then
            select_url d ((dkeys d).getD (pint (pstrip raw) - 1) [])
          else SelectOutcome.invalidChoice)
  ∧ ¬ ask_resolution_and_download d raw = SelectOutcome.invalidName := by
  have heq : ask_resolution_and_download d raw
      = if d.isEmpty then SelectOutcome.noMedia
        else if 1 ≤ pint (pstrip raw) ∧ pint (pstrip raw) ≤ d.length then
          select_url d ((dkeys d).getD (pint (pstrip raw) - 1) [])
        else SelectOutcome.invalidChoice := by
    rw [ask_resolution_and_download]
    by_cases he : d.isEmpty = true
    · rw [if_pos he, if_pos he]
    · rw [if_neg he, if_neg he, if_pos h]
  refine ⟨heq, ?_⟩
  rw [heq]
  by_cases he : d.isEmpty = true
  · simp [he]
  · by_cases hr : 1 ≤ pint (pstrip raw) ∧ pint (pstrip raw) ≤ d.length
    · simp only [he, if_false, hr, if_true]
      exact select_url_ne_invalid_name d _
    · simp [he, hr]

/-- C9 witness: on an index whose only tag is the all-digit string `1080`,
typing `1080` is treated as the ordinal 1080, which is out of range, so the
variant tagged `1080` cannot be selected by typing its tag. -/
theorem digit_input_is_ordinal_witness :
    ask_resolution_and_download c9Index (toStr "1080") = SelectOutcome.invalidChoice := by
  have h := (digit_input_is_ordinal c9Index (toStr "1080") (by decide)).1
  rw [h]
  decide

/-- C10 counterexample: on a line containing `RESOLUTION=` twice and no comma,
the extracted tag is the portion up to the second marker, not the entire
remainder of the line after the first marker. -/
theorem double_marker_tag_truncated :
    extract_resolution c10Line = toStr "800x600"
  ∧ ¬ toStr "800x600" = toStr "800x600RESOLUTION=640x480" :=
  ⟨by decide, by decide⟩

/-- C10 (amended): for every metadata line containing exactly one occurrence
of `RESOLUTION=` (its split on the marker has exactly two parts) and no comma
after it, the extracted tag is the entire remainder of the line after the
marker. -/
theorem single_marker_tag_is_remainder (line pre post : Str)
    (hin : containsSub line resMarker = true)
    (hsplit : psplit line resMarker = [pre, post])
    (hcomma : ',' ∉ post) :
    extract_resolution line = post := by
  rw [extract_resolution, if_pos hin, hsplit]
  have hc : commaSep = [','] := rfl
  show (psplit post commaSep).getD 0 [] = post
  rw [hc, psplit_no_occurrence ',' post hcomma]
  rfl

/-- C10 witness for the amended claim: a single-marker, comma-free line whose
whole remainder is the tag. -/
theorem single_marker_tag_is_remainder_witness :
    extract_resolution c10GoodLine = toStr "1920x1080" :=
  single_marker_tag_is_remainder c10GoodLine (toStr "#EXT-X-STREAM-INF:")
    (toStr "1920x1080") (by decide) (by decide) (by decide)

end M3U8
